import Mathlib

/-!
Verification of the PteroDeploy deployment orchestration engine.

The definitions below are a shallow embedding of the TypeScript source:
  * `createDeploymentPlan`, `simulateDeployment` from `backend/src/utils/deployment.ts`
  * the `POST /deployments` route and `extractModpackName` from `backend/src/routes/deployments.ts`
  * the socket `start-deployment` handler from `backend/src/sockets/...` (`setupSocketHandlers`)

Machine-level effects are made explicit: wall-clock time is threaded as a
millisecond counter advanced by every awaited persistence call (the `Delays`
environment supplies how long each await takes), `Math.random()` draws are
inputs (`shouldFail`, `failPick`, per-step extra sleep), and the Prisma store
is a list of deployment records passed in and out.
-/

namespace PteroDeploy

/-- Status strings stored in the `status` columns of `Deployment` and
`DeploymentStep` and carried by the socket events. -/
inductive Status where
  | PENDING
  | RUNNING
  | COMPLETED
  | FAILED
  | CANCELLED
deriving DecidableEq, Repr

/-- One scan position of JS `String.prototype.includes`: does `pat` occur as a
contiguous run inside `hay`? -/
def charsContain : List Char → List Char → Bool
  | [], pat => pat.isEmpty
  | c :: t, pat => pat.isPrefixOf (c :: t) || charsContain t pat

/-- JS `s.includes(pat)`. -/
def jsIncludes (s pat : String) : Bool :=
  charsContain s.toList pat.toList

/-- The `isLarge` keyword test of `createDeploymentPlan`:
`modpackUrl.includes('rlcraft') || modpackUrl.includes('all-the-mods')`. -/
def isLargeUrl (url : String) : Bool :=
  jsIncludes url "rlcraft" || jsIncludes url "all-the-mods"

/-- The `isTech` keyword test of `createDeploymentPlan`:
`modpackUrl.includes('tekkit') || modpackUrl.includes('industrialcraft')`. -/
def isTechUrl (url : String) : Bool :=
  jsIncludes url "tekkit" || jsIncludes url "industrialcraft"

/-- The `DeploymentPlan` interface of `deployment.ts`: one step template with
name, description and estimated duration in seconds. -/
structure DeploymentPlan where
  name : String
  description : String
  estimatedDuration : Nat
deriving DecidableEq, Repr

/-- `createDeploymentPlan(modpackUrl)`: the seven-entry base plan, with the
`Download Modpack` estimate bumped for large packs, and an `Install Tech Mods`
step spliced in at index 4 (`basePlan.splice(4, 0, ...)`) for tech packs. -/
def createDeploymentPlan (modpackUrl : String) : List DeploymentPlan :=
  let isLarge := isLargeUrl modpackUrl
  let isTech := isTechUrl modpackUrl
  let basePlan : List DeploymentPlan := [
    { name := "Validate URL",
      description := "Checking modpack URL and extracting metadata",
      estimatedDuration := 3 },
    { name := "Download Modpack",
      description := "Downloading modpack files and dependencies",
      estimatedDuration := if isLarge then 45 else 20 },
    { name := "Extract Files",
      description := "Extracting modpack archive and organizing files",
      estimatedDuration := 10 },
    { name := "Install Forge/Fabric",
      description := "Setting up mod loader and dependencies",
      estimatedDuration := 15 },
    { name := "Configure Server",
      description := "Applying server configurations and settings",
      estimatedDuration := 8 },
    { name := "Allocate Resources",
      description := "Setting up server resources and memory allocation",
      estimatedDuration := 5 },
    { name := "Start Server",
      description := "Starting Minecraft server and running initial checks",
      estimatedDuration := 20 }]
  if isTech then
    basePlan.take 4 ++
      [{ name := "Install Tech Mods",
         description := "Installing and configuring technical mod dependencies",
         estimatedDuration := 12 }] ++
      basePlan.drop 4
  else
    basePlan

/-- A `DeploymentStep` row. Timestamps are epoch milliseconds; `logs` is the
nullable text column holding a JSON-encoded list of strings, modelled as the
decoded list. -/
structure Step where
  id : String
  deploymentId : String
  name : String
  description : String
  status : Status
  startedAt : Option Nat
  completedAt : Option Nat
  logs : Option (List String)
  order : Nat
deriving DecidableEq, Repr

/-- A `Deployment` row. `startedAt` defaults to the creation instant;
`completedAt`, `duration` (whole seconds) and `errorMsg` are null until set. -/
structure Deployment where
  id : String
  userId : String
  modpackName : String
  modpackUrl : String
  status : Status
  startedAt : Nat
  completedAt : Option Nat
  duration : Option Nat
  errorMsg : Option String
deriving DecidableEq, Repr

/-- The `serverInfo` payload of the successful `deployment-complete` event. -/
structure ServerInfo where
  ip : String
  port : Nat
  players : String
deriving DecidableEq, Repr

/-- A socket event broadcast to the owning user's room, as emitted by
`simulateDeployment`. The `error` field of `stepUpdate` is the extra `error`
payload attached only to the FAILED step update. -/
inductive Event where
  | deploymentStatus (deploymentId : String) (status : Status) (message : String)
  | stepUpdate (deploymentId stepId : String) (status : Status) (message : String)
      (error : Option String)
  | deploymentComplete (deploymentId : String) (status : Status) (message : String)
      (duration : Nat) (serverInfo : Option ServerInfo)
deriving DecidableEq, Repr

/-- Lower-case a character and collapse every run of whitespace (`/\s+/g`) into
a single hyphen, as in `modpackName.toLowerCase().replace(/\s+/g, '-')`.
The Boolean argument records whether the previous character was whitespace. -/
def squeezeWs : Bool → List Char → List Char
  | _, [] => []
  | prevWs, c :: t =>
    if c.isWhitespace then
      (if prevWs then [] else ['-']) ++ squeezeWs true t
    else
      c :: squeezeWs false t

/-- `name.toLowerCase().replace(/\s+/g, '-')`. -/
def slugify (name : String) : String :=
  String.mk (squeezeWs false (name.toList.map Char.toLower))

/-- The `serverInfo` object built for a completed deployment. -/
def serverInfoOf (dep : Deployment) : ServerInfo :=
  { ip := slugify dep.modpackName ++ ".pterodeploy.com"
    port := 25565
    players := "0/20" }

/-- The three log lines written to a FAILED step. -/
def failLogs : List String :=
  ["Error: Failed to download modpack",
   "Connection timeout after 30 seconds",
   "Please check your internet connection and try again"]

/-- `actualDuration.toFixed(1)` for a duration given exactly in milliseconds:
seconds rounded half-up to one decimal place. -/
def toFixed1 (ms : Nat) : String :=
  let tenths := (ms + 50) / 100
  toString (tenths / 10) ++ "." ++ toString (tenths % 10)

/-- The three log lines written to a COMPLETED step; `ms` is the simulated
`actualDuration` of the step in milliseconds. -/
def successLogs (name : String) (ms : Nat) : List String :=
  ["Successfully completed " ++ name,
   "Duration: " ++ toFixed1 ms ++ "s",
   "All checks passed ✓"]

/-- `plan[i]?.estimatedDuration || 10` against the plan freshly recomputed from
the deployment's URL (the `||` also maps an explicit 0 to 10, as in JS). -/
def estimatedOf (url : String) (i : Nat) : Nat :=
  match (createDeploymentPlan url).get? i with
  | some p => if p.estimatedDuration = 0 then 10 else p.estimatedDuration
  | none => 10

/-- Wall-clock environment: how many milliseconds each awaited call consumes,
and the per-step `Math.random() * 5` sleep surplus in milliseconds. -/
structure Delays where
  depRunningMs : Nat
  stepRunningMs : Nat → Nat
  stepTermMs : Nat → Nat
  depTermMs : Nat
  extraMs : Nat → Nat

/-- Result of one simulation run: the final deployment row, the final step
rows (in execution order), the events emitted to the user's room in emission
order, and `Date.now()` at return. -/
structure RunResult where
  dep : Deployment
  steps : List Step
  events : List Event
  endMs : Nat
deriving Repr

/-- The step loop of `simulateDeployment`, from loop index `i` at wall-clock
`nowMs`, over the remaining steps. Each iteration marks the step RUNNING
(sampling `startedAt` when the update's arguments are built), sleeps the
simulated duration, and then either takes the failure branch (when
`i === failAtStep`) or completes the step and recurses; after the loop the
deployment is completed. -/
def runSteps (url : String) (dl : Delays) (failAtStep : Int) (startMs : Nat) :
    Deployment → Nat → Nat → List Step → RunResult
  | dep, _, nowMs, [] =>
    let totalDuration := (nowMs - startMs) / 1000
    let dep' := { dep with
      status := .COMPLETED, completedAt := some nowMs, duration := some totalDuration }
    { dep := dep'
      steps := []
      events := [Event.deploymentComplete dep.id .COMPLETED
        "Deployment completed successfully!" totalDuration (some (serverInfoOf dep))]
      endMs := nowMs + dl.depTermMs }
  | dep, i, nowMs, s :: rest =>
    let s1 := { s with status := Status.RUNNING, startedAt := some nowMs }
    let t1 := nowMs + dl.stepRunningMs i
    let evR := Event.stepUpdate dep.id s.id .RUNNING ("Started: " ++ s.name) none
    let durMs := 1000 * estimatedOf url i + dl.extraMs i
    let t2 := t1 + durMs
    if (i : Int) = failAtStep then
      let s2 := { s1 with
        status := Status.FAILED, completedAt := some t2, logs := some failLogs }
      let t3 := t2 + dl.stepTermMs i
      let dep' := { dep with
        status := Status.FAILED
        completedAt := some t3
        duration := some ((t3 - startMs) / 1000)
        errorMsg := some ("Deployment failed at step: " ++ s.name) }
      let t4 := t3 + dl.depTermMs
      { dep := dep'
        steps := s2 :: rest
        events := [evR,
          Event.stepUpdate dep.id s.id .FAILED ("Failed: " ++ s.name)
            (some "Connection timeout - please try again"),
          Event.deploymentComplete dep.id .FAILED "Deployment failed"
            ((t4 - startMs) / 1000) none]
        endMs := t4 }
    else
      let s2 := { s1 with
        status := Status.COMPLETED, completedAt := some t2
        logs := some (successLogs s.name durMs) }
      let t3 := t2 + dl.stepTermMs i
      let r := runSteps url dl failAtStep startMs dep (i + 1) t3 rest
      { dep := r.dep
        steps := s2 :: r.steps
        events := evR ::
          Event.stepUpdate dep.id s.id .COMPLETED ("Completed: " ++ s.name) none ::
          r.events
        endMs := r.endMs }

/-- `simulateDeployment(deployment, ...)`: capture `startTime`, persist the
RUNNING status, emit `deployment-status`, draw the failure decision once
(`shouldFail` with probability 0.2 and, when failing, `failPick` uniform over
the step indices), then run the step loop. -/
def simulateDeployment (dl : Delays) (shouldFail : Bool) (failPick : Nat)
    (dep : Deployment) (steps : List Step) (startMs : Nat) : RunResult :=
  let depR := { dep with status := Status.RUNNING }
  let t1 := startMs + dl.depRunningMs
  let failAtStep : Int := if shouldFail then (failPick : Int) else -1
  let r := runSteps dep.modpackUrl dl failAtStep startMs depR 0 t1 steps
  { r with events := Event.deploymentStatus dep.id .RUNNING "Deployment started" :: r.events }

/-- First match of a JS regex of the shape `/marker([^\/]+)/`: scan left to
right for an occurrence of `marker` followed by at least one non-slash
character, and capture that run. -/
def captureAfter (marker : List Char) : List Char → Option (List Char)
  | [] => none
  | c :: t =>
    if marker.isPrefixOf (c :: t) then
      let cap := ((c :: t).drop marker.length).takeWhile (fun ch => ch ≠ '/')
      if cap.isEmpty then captureAfter marker t else some cap
    else captureAfter marker t

/-- The anchored JS regex `/\/([^\/]+)\/?$/`: the last path segment of the
URL — a slash, one or more non-slash characters, an optional trailing slash,
then end of string. -/
def lastSegment (cs : List Char) : Option (List Char) :=
  let rcs := cs.reverse
  let core := match rcs with
    | '/' :: rest => rest
    | _ => rcs
  let seg := core.takeWhile (fun ch => ch ≠ '/')
  if seg.isEmpty then none
  else match core.drop seg.length with
    | '/' :: _ => some seg.reverse
    | _ => none

/-- Map selected characters of a string to a replacement character, as in the
global character-class replaces `replace(/[-]/g, ' ')` and `replace(/[-_]/g, ' ')`. -/
def replaceChars (p : Char → Bool) (r : Char) (s : String) : String :=
  String.mk (s.toList.map (fun c => if p c then r else c))

/-- `extractModpackName(url)` of the deployments route: CurseForge project
URLs, Modrinth project URLs, then the generic last-segment extraction, with
`'Unknown Modpack'` as the fallback. -/
def extractModpackName (url : String) : String :=
  if jsIncludes url "curseforge.com" then
    match captureAfter "/projects/".toList url.toList with
    | some cap => replaceChars (fun c => c = '-') ' ' (String.mk cap)
    | none => "Unknown Modpack"
  else if jsIncludes url "modrinth.com" then
    match captureAfter "/project/".toList url.toList with
    | some cap => replaceChars (fun c => c = '-') ' ' (String.mk cap)
    | none => "Unknown Modpack"
  else
    match lastSegment url.toList with
    | some seg => replaceChars (fun c => c = '-' || c = '_') ' ' (String.mk seg)
    | none => "Unknown Modpack"

/-- A stored deployment row together with its step rows, as the handlers fetch
it (`include: { steps: ... }`). -/
structure StoredDeployment where
  dep : Deployment
  steps : List Step
deriving DecidableEq, Repr

/-- The step rows created by `POST /deployments`: one row per plan entry, all
PENDING, with `order` set to the entry's index (`steps.map((step, index) => ...)`).
`stepIds` supplies the database-assigned row identifiers. -/
def planSteps (newId : String) (stepIds : Nat → String) (modpackUrl : String) : List Step :=
  (createDeploymentPlan modpackUrl).enum.map (fun p =>
    { id := stepIds p.1
      deploymentId := newId
      name := p.2.name
      description := p.2.description
      status := Status.PENDING
      startedAt := none
      completedAt := none
      logs := none
      order := p.1 })

/-- `POST /deployments`: reject a missing/empty (falsy) `modpackUrl` with a
400 error; otherwise create the PENDING deployment row and its PENDING step
rows and return them. Returns the new store, the created record (if any) and
the error reply (if any). -/
def createDeployment (store : List StoredDeployment) (userId : String)
    (modpackUrl : String) (modpackName : Option String) (newId : String)
    (stepIds : Nat → String) (nowMs : Nat) :
    List StoredDeployment × Option StoredDeployment × Option String :=
  if modpackUrl = "" then
    (store, none, some "Modpack URL is required")
  else
    let extractedName := match modpackName with
      | some n => if n = "" then extractModpackName modpackUrl else n
      | none => extractModpackName modpackUrl
    let dep : Deployment :=
      { id := newId
        userId := userId
        modpackName := extractedName
        modpackUrl := modpackUrl
        status := Status.PENDING
        startedAt := nowMs
        completedAt := none
        duration := none
        errorMsg := none }
    let created := StoredDeployment.mk dep (planSteps newId stepIds modpackUrl)
    (store ++ [created], some created, none)

/-- Insert a step into a list sorted by ascending `order`. -/
def insertByOrder (s : Step) : List Step → List Step
  | [] => [s]
  | t :: ts => if s.order ≤ t.order then s :: t :: ts else t :: insertByOrder s ts

/-- Sort step rows by ascending `order`, modelling the
`orderBy: { order: 'asc' }` clause of the handlers' fetches. -/
def sortByOrder : List Step → List Step
  | [] => []
  | s :: ss => insertByOrder s (sortByOrder ss)

/-- Result of one socket request: the store after the handler returns, the
events broadcast to a room (`io.to(room).emit`), and the error payload sent
back to the requesting socket via `socket.emit('deployment-error', ...)`, if
any. -/
structure HandlerResult where
  store : List StoredDeployment
  broadcasts : List (String × Event)
  errorReply : Option String
deriving Repr

/-- The `start-deployment` socket handler: fetch the deployment by id filtered
by the session's user id (`findFirst` on both); reply `'Deployment not found'`
when the fetch misses; otherwise run `simulateDeployment` on the record (steps
sorted by `order`) and persist its updates.  The handler performs no check of
the deployment's current status. -/
def startDeploymentHandler (store : List StoredDeployment)
    (sessionUserId deploymentId : String) (dl : Delays)
    (shouldFail : Bool) (failPick : Nat) (nowMs : Nat) : HandlerResult :=
  match store.find? (fun r => r.dep.id = deploymentId && r.dep.userId = sessionUserId) with
  | none => { store := store, broadcasts := [], errorReply := some "Deployment not found" }
  | some r =>
    let res := simulateDeployment dl shouldFail failPick r.dep (sortByOrder r.steps) nowMs
    { store := store.map (fun x =>
        if x.dep.id = deploymentId then StoredDeployment.mk res.dep res.steps else x)
      broadcasts := res.events.map (fun e => ("user:" ++ sessionUserId, e))
      errorReply := none }

/-- The socket messages a connected session can send, as registered by
`setupSocketHandlers`: only `start-deployment` (with a deployment id payload)
and `disconnect`. -/
inductive Signal where
  | startDeployment (deploymentId : String)
  | disconnect
deriving DecidableEq, Repr

/-- The socket event names `setupSocketHandlers` registers a listener for.
No cancellation event exists. -/
def handledSocketEvents : List String :=
  ["start-deployment", "disconnect"]

/-- Dispatch one inbound socket signal for an authenticated session.
`disconnect` only logs; `start-deployment` runs `startDeploymentHandler`. -/
def handleSignal (store : List StoredDeployment) (sessionUserId : String)
    (dl : Delays) (shouldFail : Bool) (failPick : Nat) (nowMs : Nat) :
    Signal → HandlerResult
  | .startDeployment deploymentId =>
    startDeploymentHandler store sessionUserId deploymentId dl shouldFail failPick nowMs
  | .disconnect => { store := store, broadcasts := [], errorReply := none }

/-- Projection of an event list to its `step-update` events, keeping the step
id and the broadcast status. -/
def stepUpdatesOf : List Event → List (String × Status)
  | [] => []
  | Event.stepUpdate _ sid st _ _ :: es => (sid, st) :: stepUpdatesOf es
  | _ :: es => stepUpdatesOf es

/-- Number of `deployment-complete` events in an event list. -/
def completeCount : List Event → Nat
  | [] => 0
  | Event.deploymentComplete _ _ _ _ _ :: es => completeCount es + 1
  | _ :: es => completeCount es

/-- The `step-update` events of a run, with each step id resolved to that
step's `order` index through the deployment's step list. -/
def orderTrace (steps : List Step) (evs : List Event) : List (Nat × Status) :=
  (stepUpdatesOf evs).map (fun p =>
    (((steps.find? (fun s => s.id = p.1)).map Step.order).getD 0, p.2))

/-- The step-update trace the step loop is expected to emit from loop index
`i` over the remaining steps: a RUNNING/terminal pair per step, stopping at
the failing index. -/
def expectedTrace (failAt : Int) : List Step → Nat → List (String × Status)
  | [], _ => []
  | s :: rest, i =>
    if (i : Int) = failAt then [(s.id, .RUNNING), (s.id, .FAILED)]
    else (s.id, .RUNNING) :: (s.id, .COMPLETED) :: expectedTrace failAt rest (i + 1)

/-- `expectedTrace` with step ids replaced by the steps' `order` fields. -/
def expectedOrderTrace (failAt : Int) : List Step → Nat → List (Nat × Status)
  | [], _ => []
  | s :: rest, i =>
    if (i : Int) = failAt then [(s.order, .RUNNING), (s.order, .FAILED)]
    else (s.order, .RUNNING) :: (s.order, .COMPLETED) :: expectedOrderTrace failAt rest (i + 1)

/-- Number of steps the loop executes (touches) from loop index `i`. -/
def execCount (failAt : Int) : List Step → Nat → Nat
  | [], _ => 0
  | _ :: rest, i => if (i : Int) = failAt then 1 else execCount failAt rest (i + 1) + 1

/-- Number of steps a run started with failure decision `(shouldFail,
failPick)` executes, in closed form. -/
def executedCount (shouldFail : Bool) (failPick len : Nat) : Nat :=
  if shouldFail && decide (failPick < len) then failPick + 1 else len

/-- Terminal status broadcast for executed step `j` under failure decision
`(shouldFail, failPick)`. -/
def termStatusAt (shouldFail : Bool) (failPick j : Nat) : Status :=
  if shouldFail && decide (j = failPick) then .FAILED else .COMPLETED

/-- The step statuses left behind by the loop from index `i`: COMPLETED up to
the failing index, FAILED there, and the original statuses beyond it. -/
def statusesAfter (failAt : Int) : List Step → Nat → List Status
  | [], _ => []
  | _ :: rest, i =>
    if (i : Int) = failAt then Status.FAILED :: rest.map Step.status
    else Status.COMPLETED :: statusesAfter failAt rest (i + 1)

/-- The deployment status the loop terminates with from index `i`. -/
def depStatusAfter (failAt : Int) : List Step → Nat → Status
  | [], _ => Status.COMPLETED
  | _ :: rest, i =>
    if (i : Int) = failAt then Status.FAILED else depStatusAfter failAt rest (i + 1)

/-- Sample wall-clock environment in which every awaited call returns
instantly and all random sleep surplus is zero. -/
def sampleDelays : Delays :=
  { depRunningMs := 0
    stepRunningMs := fun _ => 0
    stepTermMs := fun _ => 0
    depTermMs := 0
    extraMs := fun _ => 0 }

/-- Sample environment in which the initial RUNNING persistence call takes
five seconds of wall-clock time. -/
def sampleDelaysSlow : Delays :=
  { sampleDelays with depRunningMs := 5000 }

/-- Sample step row in deployment `d1`, order 0. -/
def stepA : Step :=
  { id := "s0"
    deploymentId := "d1"
    name := "Validate URL"
    description := "Checking modpack URL and extracting metadata"
    status := Status.PENDING
    startedAt := none
    completedAt := none
    logs := none
    order := 0 }

/-- Sample step row in deployment `d1`, order 1. -/
def stepB : Step :=
  { stepA with id := "s1", name := "Download Modpack", order := 1 }

/-- Sample step row in deployment `d2`, order 0. -/
def stepC : Step :=
  { stepA with id := "s2", deploymentId := "d2" }

/-- Sample PENDING deployment owned by `alice`. -/
def depA : Deployment :=
  { id := "d1"
    userId := "alice"
    modpackName := "small.zip"
    modpackUrl := "https://example.com/packs/small.zip"
    status := Status.PENDING
    startedAt := 0
    completedAt := none
    duration := none
    errorMsg := none }

/-- Sample RUNNING deployment owned by `alice`. -/
def depB : Deployment :=
  { depA with id := "d2", modpackName := "Pack Two", status := Status.RUNNING }

/-- Store holding one PENDING deployment with a two-step plan. -/
def storeA : List StoredDeployment :=
  [{ dep := depA, steps := [stepA, stepB] }]

/-- Store holding one deployment already RUNNING (not PENDING). -/
def storeRunning : List StoredDeployment :=
  [{ dep := { depA with status := Status.RUNNING }, steps := [stepA] }]

/-- Store holding a PENDING deployment `d1` and a RUNNING deployment `d2`. -/
def storeTwo : List StoredDeployment :=
  [{ dep := depA, steps := [stepA] }, { dep := depB, steps := [stepC] }]

theorem runSteps_stepUpdates (url : String) (dl : Delays) (failAt : Int) (startMs : Nat)
    (steps : List Step) : ∀ (dep : Deployment) (i t : Nat),
    stepUpdatesOf (runSteps url dl failAt startMs dep i t steps).events =
      expectedTrace failAt steps i := by
  induction steps with
  | nil => intro dep i t; simp [runSteps, stepUpdatesOf, expectedTrace]
  | cons s rest ih =>
    intro dep i t
    by_cases h : (i : Int) = failAt
    · simp [runSteps, stepUpdatesOf, expectedTrace, h]
    · simp [runSteps, stepUpdatesOf, expectedTrace, h, ih]

theorem runSteps_completeCount (url : String) (dl : Delays) (failAt : Int) (startMs : Nat)
    (steps : List Step) : ∀ (dep : Deployment) (i t : Nat),
    completeCount (runSteps url dl failAt startMs dep i t steps).events = 1 := by
  induction steps with
  | nil => intro dep i t; simp [runSteps, completeCount]
  | cons s rest ih =>
    intro dep i t
    by_cases h : (i : Int) = failAt
    · simp [runSteps, completeCount, h]
    · simp [runSteps, completeCount, h, ih]

theorem runSteps_dep_status (url : String) (dl : Delays) (failAt : Int) (startMs : Nat)
    (steps : List Step) : ∀ (dep : Deployment) (i t : Nat),
    (runSteps url dl failAt startMs dep i t steps).dep.status = depStatusAfter failAt steps i := by
  induction steps with
  | nil => intro dep i t; simp [runSteps, depStatusAfter]
  | cons s rest ih =>
    intro dep i t
    by_cases h : (i : Int) = failAt
    · simp [runSteps, depStatusAfter, h]
    · simp [runSteps, depStatusAfter, h, ih]

theorem depStatusAfter_terminal (failAt : Int) (steps : List Step) : ∀ (i : Nat),
    depStatusAfter failAt steps i = Status.COMPLETED ∨
      depStatusAfter failAt steps i = Status.FAILED := by
  induction steps with
  | nil => intro i; left; rfl
  | cons s rest ih =>
    intro i
    by_cases h : (i : Int) = failAt
    · right; simp [depStatusAfter, h]
    · simpa [depStatusAfter, h] using ih (i + 1)

theorem runSteps_statuses (url : String) (dl : Delays) (failAt : Int) (startMs : Nat)
    (steps : List Step) : ∀ (dep : Deployment) (i t : Nat),
    (runSteps url dl failAt startMs dep i t steps).steps.map Step.status =
      statusesAfter failAt steps i := by
  induction steps with
  | nil => intro dep i t; simp [runSteps, statusesAfter]
  | cons s rest ih =>
    intro dep i t
    by_cases h : (i : Int) = failAt
    · simp [runSteps, statusesAfter, h]
    · simp [runSteps, statusesAfter, h, ih]

theorem runSteps_duration (url : String) (dl : Delays) (failAt : Int) (startMs : Nat)
    (steps : List Step) : ∀ (dep : Deployment) (i t : Nat),
    ∃ T, (runSteps url dl failAt startMs dep i t steps).dep.completedAt = some T ∧
      (runSteps url dl failAt startMs dep i t steps).dep.duration =
        some ((T - startMs) / 1000) := by
  induction steps with
  | nil => intro dep i t; exact ⟨t, by simp [runSteps], by simp [runSteps]⟩
  | cons s rest ih =>
    intro dep i t
    by_cases h : (i : Int) = failAt
    · refine ⟨t + dl.stepRunningMs i + (1000 * estimatedOf url i + dl.extraMs i) +
        dl.stepTermMs i, ?_, ?_⟩ <;> simp [runSteps, h]
    · simpa [runSteps, h] using ih dep (i + 1)
        (t + dl.stepRunningMs i + (1000 * estimatedOf url i + dl.extraMs i) + dl.stepTermMs i)

theorem runSteps_fail (url : String) (dl : Delays) (k : Nat) (startMs : Nat)
    (steps : List Step) : ∀ (dep : Deployment) (i t : Nat), i ≤ k → k - i < steps.length →
    ∃ pre fs,
      (runSteps url dl (k : Int) startMs dep i t steps).steps =
        pre ++ fs :: steps.drop (k - i + 1) ∧
      pre.length = k - i ∧
      (∀ s ∈ pre, s.status = Status.COMPLETED) ∧
      fs.status = Status.FAILED ∧
      fs.logs = some failLogs ∧
      (runSteps url dl (k : Int) startMs dep i t steps).dep.errorMsg =
        some ("Deployment failed at step: " ++ fs.name) ∧
      (∀ sk, steps.get? (k - i) = some sk → fs.name = sk.name) := by
  induction steps with
  | nil => intro dep i t hik hlen; simp at hlen
  | cons s rest ih =>
    intro dep i t hik hlen
    by_cases h : i = k
    · subst h
      have hc : ((i : Int) = (i : Int)) := rfl
      refine ⟨[], ({ s with
        status := Status.FAILED
        startedAt := some t
        completedAt := some (t + dl.stepRunningMs i + (1000 * estimatedOf url i + dl.extraMs i))
        logs := some failLogs } : Step), ?_, ?_, ?_, ?_, ?_, ?_, ?_⟩ <;>
        simp [runSteps, hc, Nat.sub_self]
    · have hik' : i + 1 ≤ k := by omega
      have hlen' : k - (i + 1) < rest.length := by
        simp at hlen; omega
      have hne : ¬((i : Int) = (k : Int)) := by
        intro hcast; exact h (by exact_mod_cast hcast)
      obtain ⟨pre, fs, h1, h2, h3, h4, h5, h6, h7⟩ :=
        ih dep (i + 1)
          (t + dl.stepRunningMs i + (1000 * estimatedOf url i + dl.extraMs i) + dl.stepTermMs i)
          hik' hlen'
      have hki : k - i = (k - (i + 1)) + 1 := by omega
      refine ⟨({ s with
        status := Status.COMPLETED
        startedAt := some t
        completedAt := some (t + dl.stepRunningMs i + (1000 * estimatedOf url i + dl.extraMs i))
        logs := some (successLogs s.name (1000 * estimatedOf url i + dl.extraMs i)) } : Step) :: pre,
        fs, ?_, ?_, ?_, h4, h5, ?_, ?_⟩
      · simp only [runSteps, hne, if_neg, hki]
        simp [h1, hki]
      · simp [h2, hki]
      · intro x hx
        rcases List.mem_cons.mp hx with hx | hx
        · subst hx; rfl
        · exact h3 x hx
      · simpa [runSteps, hne] using h6
      · intro sk hsk
        apply h7
        rw [hki] at hsk
        simpa using hsk

theorem find_id_self (steps : List Step) (h : (steps.map Step.id).Nodup) :
    ∀ s ∈ steps, steps.find? (fun x => x.id = s.id) = some s := by
  induction steps with
  | nil => intro s hs; simp at hs
  | cons hd tl ih =>
    intro s hs
    rcases List.mem_cons.mp hs with rfl | hmem
    · simp [List.find?_cons]
    · rw [List.map_cons] at h
      have hnd := List.nodup_cons.mp h
      have hne : hd.id ≠ s.id := by
        intro he
        exact hnd.1 (he ▸ List.mem_map_of_mem Step.id hmem)
      rw [List.find?_cons]
      simp only [hne, decide_eq_true_eq, if_neg, decide_False]
      exact ih hnd.2 s hmem

theorem expectedTrace_orderMap (failAt : Int) (steps : List Step) (suf : List Step) :
    ∀ i, (∀ s ∈ suf, steps.find? (fun x => x.id = s.id) = some s) →
    (expectedTrace failAt suf i).map (fun p =>
        (((steps.find? (fun s => s.id = p.1)).map Step.order).getD 0, p.2)) =
      expectedOrderTrace failAt suf i := by
  induction suf with
  | nil => intro i hf; simp [expectedTrace, expectedOrderTrace]
  | cons s rest ih =>
    intro i hf
    have hs := hf s (List.mem_cons_self s rest)
    by_cases h : (i : Int) = failAt
    · simp [expectedTrace, expectedOrderTrace, h, hs]
    · simp only [expectedTrace, expectedOrderTrace, if_neg h, List.map_cons, hs]
      rw [ih (i + 1) (fun x hx => hf x (List.mem_cons_of_mem s hx))]
      simp

theorem expectedOrderTrace_length (failAt : Int) (suf : List Step) :
    ∀ i, (expectedOrderTrace failAt suf i).length = 2 * execCount failAt suf i := by
  induction suf with
  | nil => intro i; simp [expectedOrderTrace, execCount]
  | cons s rest ih =>
    intro i
    by_cases h : (i : Int) = failAt
    · simp [expectedOrderTrace, execCount, h]
    · simp [expectedOrderTrace, execCount, h, ih]
      omega

theorem execCount_neg (suf : List Step) : ∀ i, execCount (-1) suf i = suf.length := by
  induction suf with
  | nil => intro i; simp [execCount]
  | cons s rest ih =>
    intro i
    have h : ¬((i : Int) = -1) := by omega
    simp [execCount, h, ih]

theorem execCount_nat (k : Nat) (suf : List Step) : ∀ i, i ≤ k →
    execCount (k : Int) suf i = if k - i < suf.length then k - i + 1 else suf.length := by
  induction suf with
  | nil => intro i hik; simp [execCount]
  | cons s rest ih =>
    intro i hik
    by_cases h : i = k
    · subst h
      have hc : ((i : Int) = (i : Int)) := rfl
      simp [execCount, hc]
    · have hne : ¬((i : Int) = (k : Int)) := by
        intro hcast; exact h (by exact_mod_cast hcast)
      rw [execCount, if_neg hne, ih (i + 1) (by omega)]
      simp only [List.length_cons]
      by_cases hlt : k - (i + 1) < rest.length
      · rw [if_pos hlt, if_pos (by omega)]
        omega
      · rw [if_neg hlt, if_neg (by omega)]

theorem expectedOrderTrace_head (failAt : Int) (s : Step) (rest : List Step) (i : Nat) :
    (expectedOrderTrace failAt (s :: rest) i).head? = some (s.order, Status.RUNNING) := by
  by_cases h : (i : Int) = failAt <;> simp [expectedOrderTrace, h]

theorem expectedOrderTrace_chain (failAt : Int) (suf : List Step) :
    ∀ i, (∀ p s, suf.get? p = some s → s.order = i + p) →
    List.Chain' (fun a b : Nat × Status => a.1 ≤ b.1) (expectedOrderTrace failAt suf i) := by
  induction suf with
  | nil => intro i hords; simp [expectedOrderTrace]
  | cons s rest ih =>
    intro i hords
    by_cases h : (i : Int) = failAt
    · simp [expectedOrderTrace, h]
    · rw [expectedOrderTrace, if_neg h]
      have hords' : ∀ p x, rest.get? p = some x → x.order = (i + 1) + p := by
        intro p x hp
        have := hords (p + 1) x (by simpa using hp)
        omega
      refine List.chain'_cons.mpr ⟨le_refl _, ?_⟩
      refine List.chain'_cons'.mpr ⟨?_, ih (i + 1) hords'⟩
      intro b hb
      cases rest with
      | nil => simp [expectedOrderTrace] at hb
      | cons s' rest' =>
        rw [expectedOrderTrace_head] at hb
        have hb' : (s'.order, Status.RUNNING) = b := by simpa using hb
        subst hb'
        have ho : s.order = i := by simpa using hords 0 s rfl
        have ho' : s'.order = i + 1 := by simpa using hords' 0 s' rfl
        simp [ho, ho']

theorem expectedOrderTrace_get (failAt : Int) (suf : List Step) :
    ∀ i j, j < execCount failAt suf i →
    (∀ p s, suf.get? p = some s → s.order = i + p) →
    (expectedOrderTrace failAt suf i).get? (2 * j) = some (i + j, Status.RUNNING) ∧
    (expectedOrderTrace failAt suf i).get? (2 * j + 1) =
      some (i + j, if ((i + j : Nat) : Int) = failAt then Status.FAILED
        else Status.COMPLETED) := by
  induction suf with
  | nil => intro i j hj hords; simp [execCount] at hj
  | cons s rest ih =>
    intro i j hj hords
    have ho : s.order = i := by simpa using hords 0 s rfl
    by_cases h : (i : Int) = failAt
    · have hj1 : j = 0 := by
        rw [execCount, if_pos h] at hj; omega
      subst hj1
      refine ⟨?_, ?_⟩ <;> simp [expectedOrderTrace, h, ho]
    · rw [execCount, if_neg h] at hj
      cases j with
      | zero =>
        have hne : ¬(((i + 0 : Nat) : Int) = failAt) := by simpa using h
        refine ⟨?_, ?_⟩ <;> simp [expectedOrderTrace, h, ho, hne]
      | succ j' =>
        have hords' : ∀ p x, rest.get? p = some x → x.order = (i + 1) + p := by
          intro p x hp
          have := hords (p + 1) x (by simpa using hp)
          omega
        have hj' : j' < execCount failAt rest (i + 1) := by omega
        obtain ⟨hg1, hg2⟩ := ih (i + 1) j' hj' hords'
        have e1 : 2 * (j' + 1) = 2 * j' + 1 + 1 := by omega
        have e2 : 2 * (j' + 1) + 1 = (2 * j' + 1) + 1 + 1 := by omega
        have eiv : (i + 1) + j' = i + (j' + 1) := by omega
        constructor
        · rw [expectedOrderTrace, if_neg h, e1]
          simpa [eiv] using hg1
        · rw [expectedOrderTrace, if_neg h, e2]
          rw [eiv] at hg2
          simpa using hg2

theorem depStatusAfter_fail (k : Nat) (steps : List Step) : ∀ i, i ≤ k →
    k - i < steps.length → depStatusAfter (k : Int) steps i = Status.FAILED := by
  induction steps with
  | nil => intro i hik hlen; simp at hlen
  | cons s rest ih =>
    intro i hik hlen
    by_cases h : i = k
    · subst h
      simp [depStatusAfter]
    · have hne : ¬((i : Int) = (k : Int)) := by
        intro hcast; exact h (by exact_mod_cast hcast)
      rw [depStatusAfter, if_neg hne]
      exact ih (i + 1) (by omega) (by simp at hlen; omega)

theorem statusesAfter_count (failAt : Int) (steps : List Step) : ∀ i,
    (∀ s ∈ steps, s.status ≠ Status.FAILED) →
    (statusesAfter failAt steps i).countP (fun st => decide (st = Status.FAILED)) ≤ 1 := by
  induction steps with
  | nil => intro i hnf; simp [statusesAfter]
  | cons s rest ih =>
    intro i hnf
    by_cases h : (i : Int) = failAt
    · rw [statusesAfter, if_pos h]
      have hz : (rest.map Step.status).countP (fun st => decide (st = Status.FAILED)) = 0 := by
        rw [List.countP_eq_zero]
        intro st hst
        rcases List.mem_map.mp hst with ⟨x, hx, rfl⟩
        simpa using hnf x (List.mem_cons_of_mem s hx)
      simp [List.countP_cons, hz]
    · rw [statusesAfter, if_neg h]
      have := ih (i + 1) (fun x hx => hnf x (List.mem_cons_of_mem s hx))
      simpa [List.countP_cons] using this

theorem statusesAfter_get (failAt : Int) (steps : List Step) : ∀ i j,
    (∀ s ∈ steps, s.status ≠ Status.FAILED) →
    (statusesAfter failAt steps i).get? j = some Status.FAILED →
    ((i + j : Nat) : Int) = failAt := by
  induction steps with
  | nil => intro i j hnf hg; simp [statusesAfter] at hg
  | cons s rest ih =>
    intro i j hnf hg
    by_cases h : (i : Int) = failAt
    · rw [statusesAfter, if_pos h] at hg
      cases j with
      | zero => simpa using h
      | succ j' =>
        exfalso
        simp only [List.get?_cons_succ, List.get?_map] at hg
        cases hx : rest.get? j' with
        | none => rw [hx] at hg; simp at hg
        | some x =>
          rw [hx] at hg
          have hmem : x ∈ rest := List.get?_mem hx
          exact hnf x (List.mem_cons_of_mem s hmem) (by simpa using hg)
    · rw [statusesAfter, if_neg h] at hg
      cases j with
      | zero => simp at hg
      | succ j' =>
        have := ih (i + 1) j' (fun x hx => hnf x (List.mem_cons_of_mem s hx))
          (by simpa using hg)
        have e : i + 1 + j' = i + (j' + 1) := by omega
        rw [e] at this
        exact this

theorem simulate_stepUpdates (dl : Delays) (sf : Bool) (fp : Nat) (dep : Deployment)
    (steps : List Step) (startMs : Nat) :
    stepUpdatesOf (simulateDeployment dl sf fp dep steps startMs).events =
      expectedTrace (if sf then (fp : Int) else -1) steps 0 := by
  simp only [simulateDeployment, stepUpdatesOf]
  exact runSteps_stepUpdates _ _ _ _ _ _ _ _

theorem simulate_completeCount (dl : Delays) (sf : Bool) (fp : Nat) (dep : Deployment)
    (steps : List Step) (startMs : Nat) :
    completeCount (simulateDeployment dl sf fp dep steps startMs).events = 1 := by
  simp only [simulateDeployment, completeCount]
  exact runSteps_completeCount _ _ _ _ _ _ _ _

theorem simulate_statuses (dl : Delays) (sf : Bool) (fp : Nat) (dep : Deployment)
    (steps : List Step) (startMs : Nat) :
    (simulateDeployment dl sf fp dep steps startMs).steps.map Step.status =
      statusesAfter (if sf then (fp : Int) else -1) steps 0 := by
  simp only [simulateDeployment]
  exact runSteps_statuses _ _ _ _ _ _ _ _

theorem simulate_dep_status (dl : Delays) (sf : Bool) (fp : Nat) (dep : Deployment)
    (steps : List Step) (startMs : Nat) :
    (simulateDeployment dl sf fp dep steps startMs).dep.status =
      depStatusAfter (if sf then (fp : Int) else -1) steps 0 := by
  simp only [simulateDeployment]
  exact runSteps_dep_status _ _ _ _ _ _ _ _

theorem simulate_terminal (dl : Delays) (sf : Bool) (fp : Nat) (dep : Deployment)
    (steps : List Step) (startMs : Nat) :
    (simulateDeployment dl sf fp dep steps startMs).dep.status = Status.COMPLETED ∨
    (simulateDeployment dl sf fp dep steps startMs).dep.status = Status.FAILED := by
  rw [simulate_dep_status]
  exact depStatusAfter_terminal _ _ _

theorem simulate_duration (dl : Delays) (sf : Bool) (fp : Nat) (dep : Deployment)
    (steps : List Step) (startMs : Nat) :
    ∃ T, (simulateDeployment dl sf fp dep steps startMs).dep.completedAt = some T ∧
      (simulateDeployment dl sf fp dep steps startMs).dep.duration =
        some ((T - startMs) / 1000) := by
  simp only [simulateDeployment]
  exact runSteps_duration _ _ _ _ _ _ _ _

/-- C4: for every target descriptor string, the Plan Builder returns a
non-empty plan, the created step rows carry contiguous order indices
0..N-1, and repeated calls with the same descriptor (with fresh row ids)
produce the same step names in the same order. -/
theorem C4_plan_nonempty_contiguous_deterministic (url : String)
    (newId newId2 : String) (stepIds stepIds2 : Nat → String) :
    createDeploymentPlan url ≠ [] ∧
    (planSteps newId stepIds url).map Step.order =
      List.range (planSteps newId stepIds url).length ∧
    (planSteps newId stepIds url).map Step.name =
      (planSteps newId2 stepIds2 url).map Step.name := by
  refine ⟨?_, ?_, ?_⟩
  · simp only [createDeploymentPlan]
    split <;> simp
  · rw [planSteps, List.map_map, List.length_map, List.enum_length]
    have hcomp : (Step.order ∘ fun p : Nat × DeploymentPlan =>
        ({ id := stepIds p.1, deploymentId := newId, name := p.2.name,
           description := p.2.description, status := Status.PENDING,
           startedAt := none, completedAt := none, logs := none,
           order := p.1 } : Step)) = Prod.fst := rfl
    rw [hcomp, List.enum_map_fst]
  · rw [planSteps, planSteps, List.map_map, List.map_map]
    rfl

/-- C5: creating a deployment for the descriptor
`https://example.com/packs/small.zip` succeeds and yields exactly the seven
expected step names in order, with every step and the deployment itself in
status PENDING. -/
theorem C5_small_zip_plan :
    (createDeployment [] "u1" "https://example.com/packs/small.zip" none "d1"
        (fun n => "step" ++ toString n) 0).2.2 = none ∧
    ((createDeployment [] "u1" "https://example.com/packs/small.zip" none "d1"
        (fun n => "step" ++ toString n) 0).2.1.map (fun r => r.steps.map Step.name)) =
      some ["Validate URL", "Download Modpack", "Extract Files", "Install Forge/Fabric",
        "Configure Server", "Allocate Resources", "Start Server"] ∧
    ((createDeployment [] "u1" "https://example.com/packs/small.zip" none "d1"
        (fun n => "step" ++ toString n) 0).2.1.map (fun r => r.steps.map Step.status)) =
      some (List.replicate 7 Status.PENDING) ∧
    ((createDeployment [] "u1" "https://example.com/packs/small.zip" none "d1"
        (fun n => "step" ++ toString n) 0).2.1.map (fun r => r.dep.status)) =
      some Status.PENDING := by
  refine ⟨rfl, rfl, rfl, rfl⟩

/-- C10: the plan has exactly 7 steps unless the URL contains `tekkit` or
`industrialcraft`, in which case it has exactly 8 with `Install Tech Mods`
at index 4; `rlcraft`/`all-the-mods` only raise the `Download Modpack`
estimate from 20 to 45 and never change the names or the count. -/
theorem C10_keyword_variants (url : String) :
    (createDeploymentPlan url).length = (if isTechUrl url then 8 else 7) ∧
    (createDeploymentPlan url).map DeploymentPlan.name =
      (if isTechUrl url then
        ["Validate URL", "Download Modpack", "Extract Files", "Install Forge/Fabric",
         "Install Tech Mods", "Configure Server", "Allocate Resources", "Start Server"]
       else
        ["Validate URL", "Download Modpack", "Extract Files", "Install Forge/Fabric",
         "Configure Server", "Allocate Resources", "Start Server"]) ∧
    (createDeploymentPlan url).map DeploymentPlan.estimatedDuration =
      (if isTechUrl url then
        [3, if isLargeUrl url then 45 else 20, 10, 15, 12, 8, 5, 20]
       else
        [3, if isLargeUrl url then 45 else 20, 10, 15, 8, 5, 20]) ∧
    (createDeploymentPlan url).get? 4 =
      (if isTechUrl url then
        some { name := "Install Tech Mods",
               description := "Installing and configuring technical mod dependencies",
               estimatedDuration := 12 }
       else
        some { name := "Configure Server",
               description := "Applying server configurations and settings",
               estimatedDuration := 8 }) := by
  cases hT : isTechUrl url <;> cases hL : isLargeUrl url <;>
    simp [createDeploymentPlan, hT, hL]

/-- C7: a start signal from a session whose user id differs from the
deployment owner's (so that no record matches both the id and the session
user) is rejected with `Deployment not found`: the store is unchanged and no
events are broadcast. -/
theorem C7_foreign_start_rejected (store : List StoredDeployment)
    (sessionUserId deploymentId : String) (dl : Delays) (sf : Bool) (fp : Nat)
    (nowMs : Nat)
    (h : ∀ r ∈ store, ¬(r.dep.id = deploymentId ∧ r.dep.userId = sessionUserId)) :
    startDeploymentHandler store sessionUserId deploymentId dl sf fp nowMs =
      { store := store, broadcasts := [], errorReply := some "Deployment not found" } := by
  have hf : store.find?
      (fun r => r.dep.id = deploymentId && r.dep.userId = sessionUserId) = none := by
    rw [List.find?_eq_none]
    intro x hx
    simp only [Bool.and_eq_true, decide_eq_true_eq, not_and]
    intro h1 h2
    exact h x hx ⟨h1, h2⟩
  simp [startDeploymentHandler, hf]

/-- Witness for C7: the concrete store `storeA` is owned by `alice`; a start
signal from `bob` is rejected and leaves the store untouched. -/
theorem C7_foreign_start_rejected_witness :
    (∀ r ∈ storeA, ¬(r.dep.id = "d1" ∧ r.dep.userId = "bob")) ∧
    startDeploymentHandler storeA "bob" "d1" sampleDelays false 0 0 =
      { store := storeA, broadcasts := [], errorReply := some "Deployment not found" } :=
  ⟨by decide, C7_foreign_start_rejected storeA "bob" "d1" sampleDelays false 0 0 (by decide)⟩

/-- C9 counterexample: with the initial RUNNING persistence taking 5 s, the
persisted duration (8 s) is the span from simulation entry, not the span from
step 1's start (`startedAt` 5000 ms) to the terminal transition
(`completedAt` 8000 ms), which truncates to 3 s. -/
theorem C9_counterexample :
    (simulateDeployment sampleDelaysSlow false 0 depA [stepA] 0).dep.duration = some 8 ∧
    (simulateDeployment sampleDelaysSlow false 0 depA [stepA] 0).steps.map Step.startedAt =
      [some 5000] ∧
    (simulateDeployment sampleDelaysSlow false 0 depA [stepA] 0).dep.completedAt =
      some 8000 ∧
    (8000 - 5000) / 1000 ≠ 8 := by
  refine ⟨rfl, rfl, rfl, by decide⟩

/-- C9 (amended): the persisted duration equals the wall-clock span between
receipt of the start signal (entry into the simulation, which precedes step
1's start by the initial RUNNING persistence) and the terminal transition,
truncated to whole seconds. -/
theorem C9_duration_from_entry (dl : Delays) (sf : Bool) (fp : Nat)
    (dep : Deployment) (steps : List Step) (startMs : Nat) :
    ∃ T, (simulateDeployment dl sf fp dep steps startMs).dep.completedAt = some T ∧
      (simulateDeployment dl sf fp dep steps startMs).dep.duration =
        some ((T - startMs) / 1000) :=
  simulate_duration dl sf fp dep steps startMs

/-- C1 counterexample: the store holds a deployment that is RUNNING (not
PENDING), yet a start signal from its owner is accepted — no error reply —
and the store is mutated, the deployment being re-run to COMPLETED. -/
theorem C1_counterexample :
    (storeRunning.map (fun r => r.dep.status)) = [Status.RUNNING] ∧
    (startDeploymentHandler storeRunning "alice" "d1" sampleDelays false 0 0).errorReply =
      none ∧
    (startDeploymentHandler storeRunning "alice" "d1" sampleDelays false 0 0).store ≠
      storeRunning ∧
    ((startDeploymentHandler storeRunning "alice" "d1" sampleDelays false 0 0).store.map
      (fun r => r.dep.status)) = [Status.COMPLETED] := by
  refine ⟨rfl, rfl, by decide, rfl⟩

/-- C1 (amended): the start handler checks only existence and ownership —
a start signal for an owned deployment is accepted regardless of its status:
even when the deployment is not PENDING, no error is returned and every store
entry with that id is driven to a terminal status (mutating state). -/
theorem C1_no_precondition_guard (store : List StoredDeployment)
    (sessionUserId deploymentId : String) (dl : Delays) (sf : Bool) (fp : Nat)
    (nowMs : Nat) (r : StoredDeployment)
    (hfind : store.find?
      (fun x => x.dep.id = deploymentId && x.dep.userId = sessionUserId) = some r)
    (hst : r.dep.status ≠ Status.PENDING) :
    (startDeploymentHandler store sessionUserId deploymentId dl sf fp nowMs).errorReply =
      none ∧
    ∀ x ∈ (startDeploymentHandler store sessionUserId deploymentId dl sf fp nowMs).store,
      x.dep.id = deploymentId →
      (x.dep.status = Status.COMPLETED ∨ x.dep.status = Status.FAILED) := by
  constructor
  · simp [startDeploymentHandler, hfind]
  · intro x hx hxid
    simp only [startDeploymentHandler, hfind] at hx
    rcases List.mem_map.mp hx with ⟨y, _, rfl⟩
    by_cases hy : y.dep.id = deploymentId
    · simp only [hy, decide_True, if_pos]
      exact simulate_terminal dl sf fp r.dep (sortByOrder r.steps) nowMs
    · exfalso
      rw [if_neg (by simp [hy])] at hxid
      exact hy hxid

/-- Witness for C1 (amended): concrete instantiation on `storeRunning`. -/
theorem C1_no_precondition_guard_witness :
    (storeRunning.find?
      (fun x => x.dep.id = "d1" && x.dep.userId = "alice") =
        some { dep := { depA with status := Status.RUNNING }, steps := [stepA] }) ∧
    ({ dep := { depA with status := Status.RUNNING },
       steps := [stepA] } : StoredDeployment).dep.status ≠ Status.PENDING ∧
    ((startDeploymentHandler storeRunning "alice" "d1" sampleDelays false 0 0).errorReply =
      none ∧
    ∀ x ∈ (startDeploymentHandler storeRunning "alice" "d1" sampleDelays false 0 0).store,
      x.dep.id = "d1" →
      (x.dep.status = Status.COMPLETED ∨ x.dep.status = Status.FAILED)) :=
  ⟨by decide, by decide,
    C1_no_precondition_guard storeRunning "alice" "d1" sampleDelays false 0 0
      { dep := { depA with status := Status.RUNNING }, steps := [stepA] }
      (by decide) (by decide)⟩

/-- C3 counterexample: the socket interface handles only `start-deployment`
and `disconnect` — no cancellation event exists — and handling each available
signal on a store holding a PENDING and a RUNNING deployment never produces
the CANCELLED status. -/
theorem C3_counterexample :
    handledSocketEvents = ["start-deployment", "disconnect"] ∧
    handledSocketEvents.contains "cancel-deployment" = false ∧
    ((handleSignal storeTwo "alice" sampleDelays false 0 0
        (Signal.startDeployment "d1")).store.map (fun r => r.dep.status)) =
      [Status.COMPLETED, Status.RUNNING] ∧
    ((handleSignal storeTwo "alice" sampleDelays true 0 0
        (Signal.startDeployment "d2")).store.map (fun r => r.dep.status)) =
      [Status.PENDING, Status.FAILED] ∧
    ((handleSignal storeTwo "alice" sampleDelays false 0 0
        Signal.disconnect).store.map (fun r => r.dep.status)) =
      [Status.PENDING, Status.RUNNING] := by
  refine ⟨rfl, rfl, rfl, rfl, rfl⟩

/-- C3 (amended): the CANCELLED state is unreachable through the system's
socket interface: no signal a session can send ever sets any deployment's
status to CANCELLED — the engine only ever writes RUNNING, COMPLETED and
FAILED (CANCELLED survives only if it was already stored). -/
theorem C3_cancelled_unreachable (store : List StoredDeployment)
    (sessionUserId : String) (dl : Delays) (sf : Bool) (fp : Nat) (nowMs : Nat)
    (hclean : ∀ x ∈ store, x.dep.status ≠ Status.CANCELLED) :
    ∀ sig : Signal, ∀ x ∈ (handleSignal store sessionUserId dl sf fp nowMs sig).store,
      x.dep.status ≠ Status.CANCELLED := by
  intro sig
  cases sig with
  | disconnect => simpa [handleSignal] using hclean
  | startDeployment did =>
    simp only [handleSignal, startDeploymentHandler]
    cases hfind : store.find? (fun r => r.dep.id = did && r.dep.userId = sessionUserId) with
    | none => simpa using hclean
    | some r =>
      intro x hx
      rcases List.mem_map.mp hx with ⟨y, hy, rfl⟩
      by_cases hid : y.dep.id = did
      · simp only [hid, decide_True, if_pos]
        rcases simulate_terminal dl sf fp r.dep (sortByOrder r.steps) nowMs with ht | ht <;>
          simp [ht]
      · rw [if_neg (by simp [hid])]
        exact hclean y hy

/-- Witness for C3 (amended): concrete instantiation on `storeTwo`. -/
theorem C3_cancelled_unreachable_witness :
    (∀ x ∈ storeTwo, x.dep.status ≠ Status.CANCELLED) ∧
    (∀ sig : Signal,
      ∀ x ∈ (handleSignal storeTwo "alice" sampleDelays true 0 0 sig).store,
        x.dep.status ≠ Status.CANCELLED) :=
  ⟨by decide, C3_cancelled_unreachable storeTwo "alice" sampleDelays true 0 0 (by decide)⟩

/-- C2: when a run of an all-PENDING plan fails at step index `k`, steps
`0..k-1` end COMPLETED, step `k` ends FAILED with the (non-empty) failure
logs, steps `k+1..N-1` are left untouched in PENDING, and the deployment ends
FAILED with an error summary naming the failed step. -/
theorem C2_partial_failure (dl : Delays) (k : Nat) (dep : Deployment)
    (steps : List Step) (startMs : Nat) (hk : k < steps.length)
    (hpend : ∀ s ∈ steps, s.status = Status.PENDING) :
    ∃ pre fs,
      (simulateDeployment dl true k dep steps startMs).steps =
        pre ++ fs :: steps.drop (k + 1) ∧
      pre.length = k ∧
      (∀ s ∈ pre, s.status = Status.COMPLETED) ∧
      fs.status = Status.FAILED ∧
      fs.logs = some failLogs ∧
      failLogs ≠ [] ∧
      (∀ s ∈ steps.drop (k + 1), s.status = Status.PENDING) ∧
      (simulateDeployment dl true k dep steps startMs).dep.status = Status.FAILED ∧
      (simulateDeployment dl true k dep steps startMs).dep.errorMsg =
        some ("Deployment failed at step: " ++ fs.name) ∧
      (∀ sk, steps.get? k = some sk → fs.name = sk.name) := by
  have hrun := runSteps_fail dep.modpackUrl dl k startMs steps
    { dep with status := Status.RUNNING } 0 (startMs + dl.depRunningMs)
    (Nat.zero_le k) (by simpa using hk)
  rw [Nat.sub_zero] at hrun
  obtain ⟨pre, fs, h1, h2, h3, h4, h5, h6, h7⟩ := hrun
  have hsteps : (simulateDeployment dl true k dep steps startMs).steps =
      (runSteps dep.modpackUrl dl (k : Int) startMs
        { dep with status := Status.RUNNING } 0 (startMs + dl.depRunningMs) steps).steps := by
    simp [simulateDeployment]
  have hdep : (simulateDeployment dl true k dep steps startMs).dep =
      (runSteps dep.modpackUrl dl (k : Int) startMs
        { dep with status := Status.RUNNING } 0 (startMs + dl.depRunningMs) steps).dep := by
    simp [simulateDeployment]
  refine ⟨pre, fs, ?_, h2, h3, h4, h5, by decide, ?_, ?_, ?_, h7⟩
  · rw [hsteps, h1]
  · intro s hs
    exact hpend s (List.drop_subset _ _ hs)
  · rw [simulate_dep_status]
    simp only [if_pos rfl]
    exact depStatusAfter_fail k steps 0 (Nat.zero_le k) (by simpa using hk)
  · rw [hdep, h6]

/-- Witness for C2: failure injected at index 1 of the two-step plan of
`depA`. -/
theorem C2_partial_failure_witness :
    ((1 : Nat) < ([stepA, stepB] : List Step).length ∧
      ∀ s ∈ ([stepA, stepB] : List Step), s.status = Status.PENDING) ∧
    ∃ pre fs,
      (simulateDeployment sampleDelays true 1 depA [stepA, stepB] 0).steps =
        pre ++ fs :: ([stepA, stepB] : List Step).drop 2 ∧
      pre.length = 1 ∧
      (∀ s ∈ pre, s.status = Status.COMPLETED) ∧
      fs.status = Status.FAILED ∧
      fs.logs = some failLogs ∧
      failLogs ≠ [] ∧
      (∀ s ∈ ([stepA, stepB] : List Step).drop 2, s.status = Status.PENDING) ∧
      (simulateDeployment sampleDelays true 1 depA [stepA, stepB] 0).dep.status =
        Status.FAILED ∧
      (simulateDeployment sampleDelays true 1 depA [stepA, stepB] 0).dep.errorMsg =
        some ("Deployment failed at step: " ++ fs.name) ∧
      (∀ sk, ([stepA, stepB] : List Step).get? 1 = some sk → fs.name = sk.name) :=
  ⟨⟨by decide, by decide⟩,
    C2_partial_failure sampleDelays 1 depA [stepA, stepB] 0 (by decide) (by decide)⟩

/-- C6: the failure decision is fixed before the loop and never re-rolled:
at most one step of a run ends FAILED, a step can only end FAILED when the
run's pre-drawn decision selects exactly its index, and the resulting step
and deployment statuses are identical across any two wall-clock environments
for the same random draws. -/
theorem C6_failure_decided_once (dl dl2 : Delays) (sf : Bool) (fp : Nat)
    (dep : Deployment) (steps : List Step) (startMs startMs2 : Nat)
    (hnf : ∀ s ∈ steps, s.status ≠ Status.FAILED) :
    (simulateDeployment dl sf fp dep steps startMs).steps.countP
        (fun s => decide (s.status = Status.FAILED)) ≤ 1 ∧
    (∀ j s', (simulateDeployment dl sf fp dep steps startMs).steps.get? j = some s' →
      s'.status = Status.FAILED → sf = true ∧ j = fp) ∧
    (simulateDeployment dl sf fp dep steps startMs).steps.map Step.status =
      (simulateDeployment dl2 sf fp dep steps startMs2).steps.map Step.status ∧
    (simulateDeployment dl sf fp dep steps startMs).dep.status =
      (simulateDeployment dl2 sf fp dep steps startMs2).dep.status := by
  refine ⟨?_, ?_, ?_, ?_⟩
  · have hc := statusesAfter_count (if sf then (fp : Int) else -1) steps 0 hnf
    rw [← simulate_statuses dl sf fp dep steps startMs, List.countP_map] at hc
    simpa [Function.comp] using hc
  · intro j s' hget hfs
    have hm : ((simulateDeployment dl sf fp dep steps startMs).steps.map
        Step.status).get? j = some Status.FAILED := by
      rw [List.get?_map, hget]
      simp [hfs]
    rw [simulate_statuses] at hm
    have hfa := statusesAfter_get (if sf then (fp : Int) else -1) steps 0 j hnf hm
    cases sf with
    | false =>
      exfalso
      simp only [Bool.false_eq_true, if_neg, if_false] at hfa
      omega
    | true =>
      refine ⟨rfl, ?_⟩
      simp only [if_pos] at hfa
      omega
  · rw [simulate_statuses, simulate_statuses]
  · rw [simulate_dep_status, simulate_dep_status]

/-- Witness for C6: concrete two-step run compared across the instant and the
slow wall-clock environments. -/
theorem C6_failure_decided_once_witness :
    (∀ s ∈ ([stepA, stepB] : List Step), s.status ≠ Status.FAILED) ∧
    ((simulateDeployment sampleDelays true 0 depA [stepA, stepB] 0).steps.countP
        (fun s => decide (s.status = Status.FAILED)) ≤ 1 ∧
    (∀ j s',
      (simulateDeployment sampleDelays true 0 depA [stepA, stepB] 0).steps.get? j =
        some s' → s'.status = Status.FAILED → true = true ∧ j = 0) ∧
    (simulateDeployment sampleDelays true 0 depA [stepA, stepB] 0).steps.map Step.status =
      (simulateDeployment sampleDelaysSlow true 0 depA [stepA, stepB] 7).steps.map
        Step.status ∧
    (simulateDeployment sampleDelays true 0 depA [stepA, stepB] 0).dep.status =
      (simulateDeployment sampleDelaysSlow true 0 depA [stepA, stepB] 7).dep.status) :=
  ⟨by decide,
    C6_failure_decided_once sampleDelays sampleDelaysSlow true 0 depA [stepA, stepB] 0 7
      (by decide)⟩

/-- C8: per run, the broadcast step-update trace (resolved to order indices)
is non-decreasing, consists of a RUNNING event immediately followed by that
step's terminal event for each executed step in index order — so each RUNNING
precedes its own terminal event, which precedes the next step's RUNNING — and
exactly one deployment-complete event is emitted. -/
theorem C8_event_ordering (dl : Delays) (sf : Bool) (fp : Nat) (dep : Deployment)
    (steps : List Step) (startMs : Nat)
    (hids : (steps.map Step.id).Nodup)
    (hords : steps.map Step.order = List.range steps.length) :
    completeCount (simulateDeployment dl sf fp dep steps startMs).events = 1 ∧
    List.Chain' (fun a b : Nat × Status => a.1 ≤ b.1)
      (orderTrace steps (simulateDeployment dl sf fp dep steps startMs).events) ∧
    (orderTrace steps (simulateDeployment dl sf fp dep steps startMs).events).length =
      2 * executedCount sf fp steps.length ∧
    ∀ j, j < executedCount sf fp steps.length →
      (orderTrace steps (simulateDeployment dl sf fp dep steps startMs).events).get?
        (2 * j) = some (j, Status.RUNNING) ∧
      (orderTrace steps (simulateDeployment dl sf fp dep steps startMs).events).get?
        (2 * j + 1) = some (j, termStatusAt sf fp j) := by
  have hpos : ∀ p s, steps.get? p = some s → s.order = 0 + p := by
    intro p s hp
    have hlt : p < steps.length := by
      by_contra hge
      rw [List.get?_eq_none.mpr (by omega)] at hp
      exact Option.noConfusion hp
    have hm : (steps.map Step.order).get? p = some s.order := by
      rw [List.get?_map, hp]; rfl
    rw [hords, List.get?_range hlt] at hm
    have : p = s.order := by injection hm
    omega
  have hfind := find_id_self steps hids
  have hot : orderTrace steps (simulateDeployment dl sf fp dep steps startMs).events =
      expectedOrderTrace (if sf then (fp : Int) else -1) steps 0 := by
    rw [orderTrace, simulate_stepUpdates]
    exact expectedTrace_orderMap (if sf then (fp : Int) else -1) steps steps 0 hfind
  have hcount : execCount (if sf then (fp : Int) else -1) steps 0 =
      executedCount sf fp steps.length := by
    cases sf with
    | false =>
      simp only [Bool.false_eq_true, if_false]
      rw [execCount_neg]
      simp [executedCount]
    | true =>
      simp only [if_pos]
      rw [execCount_nat fp steps 0 (Nat.zero_le fp)]
      simp [executedCount]
  refine ⟨simulate_completeCount dl sf fp dep steps startMs, ?_, ?_, ?_⟩
  · rw [hot]
    exact expectedOrderTrace_chain (if sf then (fp : Int) else -1) steps 0 hpos
  · rw [hot, expectedOrderTrace_length, hcount]
  · intro j hj
    have hj' : j < execCount (if sf then (fp : Int) else -1) steps 0 := by
      rw [hcount]; exact hj
    obtain ⟨hg1, hg2⟩ :=
      expectedOrderTrace_get (if sf then (fp : Int) else -1) steps 0 j hj' hpos
    have hterm : (if (((0 + j : Nat) : Int)) = (if sf then (fp : Int) else -1)
        then Status.FAILED else Status.COMPLETED) = termStatusAt sf fp j := by
      cases sf with
      | false =>
        have hne : ¬(((0 + j : Nat) : Int) = -1) := by omega
        simp [termStatusAt, hne]
      | true =>
        by_cases hjf : j = fp
        · subst hjf
          simp [termStatusAt]
        · have hne : ¬(((0 + j : Nat) : Int) = (fp : Int)) := by
            intro hc
            exact hjf (by exact_mod_cast (by simpa using hc))
          simp [termStatusAt, hne, hjf]
    constructor
    · rw [hot]
      simpa using hg1
    · rw [hot]
      rw [hterm] at hg2
      simpa using hg2

/-- Witness for C8: concrete two-step run with failure injected at index 1. -/
theorem C8_event_ordering_witness :
    ((([stepA, stepB] : List Step).map Step.id).Nodup ∧
      ([stepA, stepB] : List Step).map Step.order =
        List.range ([stepA, stepB] : List Step).length) ∧
    (completeCount (simulateDeployment sampleDelays true 1 depA [stepA, stepB] 0).events =
        1 ∧
    List.Chain' (fun a b : Nat × Status => a.1 ≤ b.1)
      (orderTrace [stepA, stepB]
        (simulateDeployment sampleDelays true 1 depA [stepA, stepB] 0).events) ∧
    (orderTrace [stepA, stepB]
        (simulateDeployment sampleDelays true 1 depA [stepA, stepB] 0).events).length =
      2 * executedCount true 1 ([stepA, stepB] : List Step).length ∧
    ∀ j, j < executedCount true 1 ([stepA, stepB] : List Step).length →
      (orderTrace [stepA, stepB]
        (simulateDeployment sampleDelays true 1 depA [stepA, stepB] 0).events).get?
          (2 * j) = some (j, Status.RUNNING) ∧
      (orderTrace [stepA, stepB]
        (simulateDeployment sampleDelays true 1 depA [stepA, stepB] 0).events).get?
          (2 * j + 1) = some (j, termStatusAt true 1 j)) :=
  ⟨⟨by decide, by decide⟩,
    C8_event_ordering sampleDelays true 1 depA [stepA, stepB] 0 (by decide) (by decide)⟩

end PteroDeploy
